import Mathlib

/-!
Verification of the yunohost application-lifecycle core (`src/yunohost/app.py`)
against its natural-language specification.

The Python source is shallowly embedded: dictionaries become association
lists, Python `None`-able values become `Option`, raisable code returns
`Except`, and the external collaborators (domain list, user directory,
password policy, interactive prompt, package database, script execution)
become explicit parameters.  Functions named after the source keep the
source's control flow; the few helpers that live in modules absent from the
sources are modelled from the specification and say so in their doc comment.
-/

namespace Yunohost

/-- A Python scalar value as it occurs in manifests, caller argument
dictionaries and app settings: a string, an integer or a boolean. -/
inductive PyVal where
  | str (s : String)
  | int (n : Int)
  | bool (b : Bool)
deriving DecidableEq

/-- Python truthiness of a `PyVal` (`bool(v)`). -/
def PyVal.truthy : PyVal → Bool
  | .str s => s ≠ ""
  | .int n => n ≠ 0
  | .bool b => b

/-- Python `str(v)` for the values we model. -/
def PyVal.toStr : PyVal → String
  | .str s => s
  | .int n => toString n
  | .bool b => if b then "True" else "False"

/-- ASCII lower-casing of a string, Python `s.lower()` on the ASCII
strings handled by this code. -/
def strLower (s : String) : String :=
  ⟨s.data.map Char.toLower⟩

/-- Strip characters satisfying `p` from both ends of a character list
(Python `s.strip(chars)`). -/
def stripChars (p : Char → Bool) (l : List Char) : List Char :=
  ((l.dropWhile p).reverse.dropWhile p).reverse

/-- Python `s.strip()` (whitespace from both ends). -/
def pyStrip (l : List Char) : List Char :=
  stripChars Char.isWhitespace l

/-- A character matched by the pattern class `[\w-]` of
`re_app_instance_name` (`app.py:65`): an ASCII word character or a
hyphen (Python 2 `re` with the default ASCII semantics). -/
def isAppIdChar (c : Char) : Bool :=
  c.isAlphanum || c = '_' || c = '-'

/-- The suffix group `[1-9][0-9]*` of `re_app_instance_name`: a non-empty
digit string with no leading zero. -/
def validInstanceNum (l : List Char) : Bool :=
  match l with
  | [] => false
  | c :: cs => ('1' ≤ c && c ≤ '9') && cs.all (fun d => d.isDigit)

/-- Numeric value of a digit string (how Python `int` reads the matched
instance-number group). -/
def digitsVal (ds : List Char) : Nat :=
  ds.foldl (fun n c => 10 * n + (c.toNat - 48)) 0

/-- The optional group `(__(?P<appinstancenb>[1-9][0-9]*))?` of
`re_app_instance_name`, tried against the whole remainder of the input:
succeeds only when the remainder is `__` followed by a valid instance
number reaching the end of the string. -/
def instanceSuffix (l : List Char) : Option Nat :=
  match l with
  | a :: b :: ds =>
      if a = '_' ∧ b = '_' ∧ validInstanceNum ds then some (digitsVal ds) else none
  | _ => none

/-- Matching loop of `re_app_instance_name` after at least one appid
character has been consumed.  The appid group `[\w-]+?` is lazy, so the
engine first tries to finish the match at the current point (empty
remainder, or a `__<number>` suffix reaching the end) and only otherwise
consumes one more appid character. -/
def goParse (acc : List Char) : List Char → Option (List Char × Nat)
  | [] => some (acc, 1)
  | c :: cs =>
      match instanceSuffix (c :: cs) with
      | some n => some (acc, n)
      | none => if isAppIdChar c then goParse (acc ++ [c]) cs else none

/-- `_parse_app_instance_name` (`app.py:2266`): matches
`re_app_instance_name` against the input and returns the appid together
with the instance number (`1` when the suffix group is absent).  When the
regex does not match, the Python code calls `.groupdict()` on `None` and
raises; this is the `none` result. -/
def parseAppInstanceName (s : String) : Option (String × Nat) :=
  match s.data with
  | [] => none
  | c :: cs =>
      if isAppIdChar c then (goParse [c] cs).map (fun p => (⟨p.1⟩, p.2)) else none

/-- Python 2 `int(s)` on a string: optional surrounding whitespace, an
optional sign, then a non-empty digit string; anything else raises
(`none`). -/
def pyIntCore (ds : List Char) : Option Nat :=
  if ds ≠ [] ∧ ds.all (fun d => d.isDigit) then some (digitsVal ds) else none

/-- Python 2 `int(s)` for base-ten string literals. -/
def pyInt (s : String) : Option Int :=
  match pyStrip s.data with
  | [] => none
  | c :: cs =>
      if c = '-' then (pyIntCore cs).map (fun n => -(n : Int))
      else if c = '+' then (pyIntCore cs).map (fun n => (n : Int))
      else (pyIntCore (c :: cs)).map (fun n => (n : Int))

/-- Split a character list at the first occurrence of the separator `__`
(Python `s.index('__')`): returns the part before and the part after the
separator, or `none` when the separator does not occur. -/
def splitDunder : List Char → Option (List Char × List Char)
  | [] => none
  | c :: cs =>
      match cs with
      | [] => none
      | d :: rest =>
          if c = '_' ∧ d = '_' then some ([], rest)
          else (splitDunder cs).map (fun p => (c :: p.1, p.2))

/-- Loop body of `_installed_instance_number(auth, app, last=True)`
(`app.py:1927`): folds over the instance directory names with the running
`number` accumulator.  A matching entry whose suffix is not a valid
integer literal makes Python `int` raise, which is the `none` result. -/
def instNumFold (app : String) : List String → Int → Option Int
  | [], n => some n
  | e :: es, n =>
      if n = 0 ∧ e = app then instNumFold app es 1
      else
        (splitDunder e.data).elim (instNumFold app es n) (fun p =>
          if (⟨p.1⟩ : String) = app then
            (pyInt ⟨p.2⟩).elim none (fun v =>
              instNumFold app es (if v > n then v else n))
          else instNumFold app es n)

/-- `_installed_instance_number(auth, app, last=True)` (`app.py:1915`):
the largest instance number currently used by `app` among the existing
instance directory names (`0` when none is). -/
def installedInstanceNumberLast (app : String) (entries : List String) : Option Int :=
  instNumFold app entries 0

/-- The next instance number computed by `app_install` (`app.py:748`):
one more than the last installed instance number. -/
def nextInstanceNumber (app : String) (entries : List String) : Option Int :=
  (installedInstanceNumberLast app entries).map (fun n => n + 1)

/-! ### Instance-namer theorems (C6, C7, C8) -/

theorem isAppIdChar_of_isDigit {c : Char} (h : c.isDigit = true) :
    isAppIdChar c = true := by
  simp [isAppIdChar, Char.isAlphanum, h]

theorem isDigit_of_between {c : Char} (h1 : '1' ≤ c) (h2 : c ≤ '9') :
    c.isDigit = true := by
  simp only [Char.isDigit, ge_iff_le, Bool.and_eq_true, decide_eq_true_eq]
  exact ⟨UInt32.le_trans (by decide) (Char.le_def.mp h1), Char.le_def.mp h2⟩

theorem all_isAppIdChar_of_validInstanceNum {l : List Char}
    (h : validInstanceNum l = true) : l.all isAppIdChar = true := by
  match l with
  | [] => simp [validInstanceNum] at h
  | c :: cs =>
    simp only [validInstanceNum, Bool.and_eq_true, decide_eq_true_eq] at h
    obtain ⟨⟨h1, h2⟩, h3⟩ := h
    simp only [List.all_cons, Bool.and_eq_true]
    refine ⟨isAppIdChar_of_isDigit (isDigit_of_between h1 h2), ?_⟩
    rw [List.all_eq_true] at h3 ⊢
    exact fun x hx => isAppIdChar_of_isDigit (h3 x hx)

theorem all_isAppIdChar_of_instanceSuffix {l : List Char} {n : Nat}
    (h : instanceSuffix l = some n) : l.all isAppIdChar = true := by
  match l with
  | [] => simp [instanceSuffix] at h
  | [a] => simp [instanceSuffix] at h
  | a :: b :: ds =>
    simp only [instanceSuffix] at h
    split at h
    · rename_i hcond
      obtain ⟨ha, hb, hnum⟩ := hcond
      subst ha; subst hb
      simp only [List.all_cons, Bool.and_eq_true]
      exact ⟨by decide, by decide, all_isAppIdChar_of_validInstanceNum hnum⟩
    · exact absurd h (by simp)

theorem goParse_isSome : ∀ (cs acc : List Char),
    (goParse acc cs).isSome = cs.all isAppIdChar := by
  intro cs
  induction cs with
  | nil => intro acc; simp [goParse]
  | cons c cs ih =>
    intro acc
    simp only [goParse]
    cases h : instanceSuffix (c :: cs) with
    | some n =>
      have hall := all_isAppIdChar_of_instanceSuffix h
      simp [hall]
    | none =>
      by_cases hc : isAppIdChar c = true
      · simp [hc, ih]
      · simp [hc, List.all_cons, Bool.eq_false_iff.mpr hc]

/-- C6: `parseInstanceName` follows the grammar of `re_app_instance_name`:
an appid optionally followed by `__` and a positive integer with no
leading zero, a non-integer suffix leaving the whole string as the appid
with instance number 1; in particular on the four examples of the
specification. -/
theorem parseAppInstanceName_grammar_examples :
    parseAppInstanceName "yolo" = some ("yolo", 1) ∧
    parseAppInstanceName "yolo__23" = some ("yolo", 23) ∧
    parseAppInstanceName "yolo__23qdqsd" = some ("yolo__23qdqsd", 1) ∧
    parseAppInstanceName "yolo__42__72" = some ("yolo__42", 72) :=
  ⟨rfl, rfl, rfl, rfl⟩

/-- C7 counterexample: `_parse_app_instance_name` is not total.  On the
empty string the regex does not match, `match.groupdict()` is called on
`None` and the Python code raises, so the embedded function returns
`none` instead of yielding a pair. -/
theorem parseAppInstanceName_empty_string_fails :
    parseAppInstanceName "" = none := rfl

/-- C7 amended: `_parse_app_instance_name` yields a result exactly on the
non-empty strings made of word characters and hyphens (the alphabet of
`re_app_instance_name`); on every other input — the empty string or any
string containing a character outside that class — the code raises. -/
theorem parseAppInstanceName_isSome_iff (s : String) :
    (parseAppInstanceName s).isSome = true ↔
      s ≠ "" ∧ s.data.all isAppIdChar = true := by
  cases s with
  | mk l =>
    cases l with
    | nil => simp [parseAppInstanceName, String.ext_iff]
    | cons c cs =>
      simp only [parseAppInstanceName]
      by_cases hc : isAppIdChar c = true
      · simp [hc, goParse_isSome, String.ext_iff, List.all_cons]
      · simp [hc, String.ext_iff, List.all_cons, Bool.eq_false_iff.mpr hc]

theorem splitDunder_cons2 (c d : Char) (rest : List Char) :
    splitDunder (c :: d :: rest) =
      if c = '_' ∧ d = '_' then some ([], rest)
      else (splitDunder (d :: rest)).map (fun p => (c :: p.1, p.2)) := rfl

theorem splitDunder_length_lt : ∀ (l : List Char) (p : List Char × List Char),
    splitDunder l = some p → p.1.length < l.length := by
  intro l
  induction l with
  | nil => intro p h; simp [splitDunder] at h
  | cons c cs ih =>
    intro p h
    cases cs with
    | nil => simp [splitDunder] at h
    | cons d rest =>
      rw [splitDunder_cons2] at h
      split at h
      · cases h
        simp
      · cases hq : splitDunder (d :: rest) with
        | none => rw [hq] at h; simp at h
        | some q =>
          rw [hq, Option.map_some'] at h
          cases h
          have hlt := ih q hq
          simp only [List.length_cons] at hlt ⊢
          omega

/-- The instance-number contributions of the existing instance directory
names, read off `_installed_instance_number`: the bare appId entry
contributes 1, an entry whose part before the first `__` equals the appId
contributes the integer value of the remainder (failing like Python `int`
when that remainder is not an integer literal), and every other entry
contributes nothing. -/
def entryCands (app : String) : List String → Option (List Int)
  | [] => some []
  | e :: es =>
      if e = app then (entryCands app es).map (fun l => 1 :: l)
      else
        (splitDunder e.data).elim (entryCands app es) (fun p =>
          if (⟨p.1⟩ : String) = app then
            (pyInt ⟨p.2⟩).elim none (fun v =>
              (entryCands app es).map (fun l => v :: l))
          else entryCands app es)

theorem foldl_max_cons (n v : Int) (l : List Int) :
    (v :: l).foldl max n = l.foldl max (max n v) := rfl

theorem instNumFold_cons (app e : String) (es : List String) (n : Int) :
    instNumFold app (e :: es) n =
      if n = 0 ∧ e = app then instNumFold app es 1
      else
        (splitDunder e.data).elim (instNumFold app es n) (fun p =>
          if (⟨p.1⟩ : String) = app then
            (pyInt ⟨p.2⟩).elim none (fun v =>
              instNumFold app es (if v > n then v else n))
          else instNumFold app es n) := rfl

theorem entryCands_cons (app e : String) (es : List String) :
    entryCands app (e :: es) =
      if e = app then (entryCands app es).map (fun l => 1 :: l)
      else
        (splitDunder e.data).elim (entryCands app es) (fun p =>
          if (⟨p.1⟩ : String) = app then
            (pyInt ⟨p.2⟩).elim none (fun v =>
              (entryCands app es).map (fun l => v :: l))
          else entryCands app es) := rfl

theorem notSelfDunder (e : String) (p : List Char × List Char)
    (hp : splitDunder e.data = some p) : ¬ (⟨p.1⟩ : String) = e := by
  intro hmk
  have hlen := splitDunder_length_lt e.data p hp
  have hdata : p.1 = e.data := congrArg String.data hmk
  rw [hdata] at hlen
  omega

theorem instNumFold_eq_max (app : String) :
    ∀ (es : List String) (n : Int), 0 ≤ n →
      instNumFold app es n = (entryCands app es).map (fun l => l.foldl max n) := by
  intro es
  induction es with
  | nil => intro n hn; rfl
  | cons e es ih =>
    intro n hn
    rw [instNumFold_cons, entryCands_cons]
    by_cases he : e = app
    · rw [if_pos he]
      by_cases hn0 : n = 0
      · rw [if_pos ⟨hn0, he⟩, ih 1 (by omega), Option.map_map]
        subst hn0
        cases entryCands app es with
        | none => rfl
        | some l =>
          simp only [Option.map_some', Function.comp_apply, foldl_max_cons]
          norm_num
      · rw [if_neg (fun hcon => hn0 hcon.1)]
        have hn1 : (1 : Int) ≤ n := by omega
        cases hp : splitDunder e.data with
        | none =>
          rw [Option.elim_none, ih n hn, Option.map_map]
          cases entryCands app es with
          | none => rfl
          | some l =>
            simp only [Option.map_some', Function.comp_apply, foldl_max_cons,
              max_eq_left hn1]
        | some p =>
          rw [Option.elim_some,
            if_neg (fun hx => notSelfDunder e p hp (hx.trans he.symm)),
            ih n hn, Option.map_map]
          cases entryCands app es with
          | none => rfl
          | some l =>
            simp only [Option.map_some', Function.comp_apply, foldl_max_cons,
              max_eq_left hn1]
    · rw [if_neg he, if_neg (fun hcon => he hcon.2)]
      cases hp : splitDunder e.data with
      | none =>
        rw [Option.elim_none, Option.elim_none]
        exact ih n hn
      | some p =>
        rw [Option.elim_some, Option.elim_some]
        by_cases hpre : (⟨p.1⟩ : String) = app
        · rw [if_pos hpre, if_pos hpre]
          cases hv : pyInt ⟨p.2⟩ with
          | none => rfl
          | some v =>
            rw [Option.elim_some, Option.elim_some]
            have hif : (if v > n then v else n) = max n v := by
              rcases le_or_lt v n with h | h
              · rw [if_neg (by omega), max_eq_left h]
              · rw [if_pos h, max_eq_right (le_of_lt h)]
            rw [hif, ih (max n v) (le_trans hn (le_max_left n v)), Option.map_map]
            cases entryCands app es with
            | none => rfl
            | some l =>
              simp only [Option.map_some', Function.comp_apply, foldl_max_cons]
        · rw [if_neg hpre, if_neg hpre]
          exact ih n hn

/-- C8 counterexample: with `app__5` as the only existing instance
directory and no entry equal to the bare appId, `nextInstanceNumber`
returns 6, not 1 as the claim states for that case. -/
theorem nextInstanceNumber_counterexample :
    nextInstanceNumber "app" ["app__5"] = some 6 ∧
    ¬ nextInstanceNumber "app" ["app__5"] = some 1 :=
  ⟨rfl, by decide⟩

/-- C8 amended: `nextInstanceNumber` is 1 plus the maximum of 0, the
numeric suffixes of the entries whose appId part before the first `__`
equals the given appId, and 1 for a bare appId entry — so it is 1 exactly
when no entry matches at all, and a matching entry with a non-integer
suffix makes the computation fail. -/
theorem nextInstanceNumber_eq (app : String) (entries : List String) :
    nextInstanceNumber app entries =
      (entryCands app entries).map (fun l => l.foldl max 0 + 1) := by
  unfold nextInstanceNumber installedInstanceNumberLast
  rw [instNumFold_eq_max app entries 0 le_rfl]
  cases entryCands app entries <;> simp

/-! ### Argument resolver (`_parse_action_args_in_yunohost_format`, `app.py:2092`) -/

/-- One argument specification from a manifest or `actions.json`:
`name`, `type` (absent means `string`, which `arg.get('type', 'string')`
fills in), the declared `default`, the `choices` list, the `optional`
flag and whether an `ask` prompt is declared. -/
structure ArgSpec where
  name : String
  type : String := "string"
  default : Option PyVal := none
  choices : List String := []
  optional : Bool := false
  ask : Bool := false
deriving DecidableEq

/-- Existing (domain, path) registration of an installed app together
with its id and label, as listed by the app map. -/
structure AppUrl where
  domain : String
  path : String
  appId : String
  label : String
deriving DecidableEq

/-- The external collaborators of the argument resolver: the domain list
and main domain, the user directory, the installed apps, the password
policy, the interactive prompt (`none` models the
`NotImplementedError` of a non-interactive channel) and the existing
app registrations used by the conflict check. -/
structure Ctx where
  domains : List String
  mainDomain : String
  users : List String
  installedApps : List String
  strongPassword : PyVal → Bool
  prompt : String → Option String
  apps : List AppUrl

/-- The errors the resolver raises (`MoulinetteError` message keys). -/
inductive ArgError where
  | appArgumentRequired (name : String)
  | appArgumentChoiceInvalid (name : String) (choices : String)
  | appArgumentInvalid (name : String) (error : String)
  | appLocationUnavailable (apps : List (String × String × String))
  | passwordTooWeak
deriving DecidableEq

instance {ε α : Type} [DecidableEq ε] [DecidableEq α] :
    DecidableEq (Except ε α)
  | .ok x, .ok y => decidable_of_iff (x = y) (by simp)
  | .error x, .error y => decidable_of_iff (x = y) (by simp)
  | .ok _, .error _ => Decidable.isFalse (fun h => Except.noConfusion h)
  | .error _, .ok _ => Decidable.isFalse (fun h => Except.noConfusion h)

/-- Membership of a Python value in a list of strings (`v in l`): only a
string can compare equal to a string. -/
def pyValMemStr (v : PyVal) (l : List String) : Bool :=
  match v with
  | .str s => l.contains s
  | _ => false

/-- Dictionary lookup in an association list (`name in args` /
`args[name]`). -/
def lookupKV {α : Type} (d : List (String × α)) (k : String) : Option α :=
  (d.find? (fun kv => kv.1 = k)).map (fun kv => kv.2)

/-- `OrderedDict` assignment `d[k] = v`: replaces the value in place when
the key exists, appends otherwise. -/
def odInsert {α : Type} : List (String × α) → String → α → List (String × α)
  | [], k, v => [(k, v)]
  | (k', v') :: rest, k, v =>
      if k' = k then (k, v) :: rest else (k', v') :: odInsert rest k v

/-- Python truthiness of an optional value (`None` is falsy). -/
def pyTruthyOpt : Option PyVal → Bool
  | none => false
  | some v => v.truthy

/-- Python `arg_value is None or arg_value == ''` (`app.py:2165`): only
`None` and the empty string satisfy it. -/
def pyIsNoneOrEmpty : Option PyVal → Bool
  | none => true
  | some (.str s) => s = ""
  | some _ => false

/-- Value retrieval for one argument (`app.py:2104`–2162): the declared
default is transposed to `1`/`0` for booleans and to the main domain for
a prompted domain argument, then the caller value, the prompt answer and
the default are tried in that order; an empty or unavailable prompt
answer falls back to the default when one exists. -/
def resolveValue (ctx : Ctx) (args : List (String × PyVal)) (arg : ArgSpec) :
    Option PyVal :=
  let argDefault : Option PyVal :=
    if arg.type = "boolean" then
      some (.int (if pyTruthyOpt arg.default then 1 else 0))
    else arg.default
  match lookupKV args arg.name with
  | some v => some v
  | none =>
      if arg.ask then
        let argDefault :=
          if arg.type = "domain" then some (.str ctx.mainDomain) else argDefault
        match ctx.prompt arg.name with
        | none => argDefault
        | some input =>
            if input = "" ∧ argDefault.isSome then argDefault
            else some (.str input)
      else argDefault

/-- Resolution and validation of one argument (`app.py:2101`–2212):
produces the value recorded into `args_dict`, or the error the Python
code raises.  An absent optional value is recorded as the empty string;
choice membership, domain/user/app existence, boolean coercion and
password strength are checked as in the source. -/
def processArg (ctx : Ctx) (args : List (String × PyVal)) (arg : ArgSpec) :
    Except ArgError PyVal :=
  let v? := resolveValue ctx args arg
  if pyIsNoneOrEmpty v? ∧ ¬ arg.optional then
    .error (.appArgumentRequired arg.name)
  else
    match v? with
    | none => .ok (.str "")
    | some v =>
        if arg.choices ≠ [] ∧ ¬ pyValMemStr v arg.choices then
          .error (.appArgumentChoiceInvalid arg.name (", ".intercalate arg.choices))
        else if arg.type = "domain" then
          if pyValMemStr v ctx.domains then .ok v
          else .error (.appArgumentInvalid arg.name "domain_unknown")
        else if arg.type = "user" then
          if pyValMemStr v ctx.users then .ok v
          else .error (.appArgumentInvalid arg.name "user_unknown")
        else if arg.type = "app" then
          if pyValMemStr v ctx.installedApps then .ok v
          else .error (.appArgumentInvalid arg.name "app_unknown")
        else if arg.type = "boolean" then
          match v with
          | .bool b => .ok (.int (if b then 1 else 0))
          | _ =>
              if ["1", "yes", "y"].contains (strLower v.toStr) then .ok (.int 1)
              else if ["0", "no", "n"].contains (strLower v.toStr) then
                .ok (.int 0)
              else
                .error (.appArgumentChoiceInvalid arg.name "yes, no, y, n, 1, 0")
        else if arg.type = "password" then
          if ctx.strongPassword v then .ok v else .error .passwordTooWeak
        else .ok v

/-- The loop of `_parse_action_args_in_yunohost_format` over the argument
specifications, building `args_dict`. -/
def parseArgsLoop (ctx : Ctx) (args : List (String × PyVal)) :
    List ArgSpec → List (String × PyVal) → Except ArgError (List (String × PyVal))
  | [], acc => .ok acc
  | a :: rest, acc =>
      match processArg ctx args a with
      | .error e => .error e
      | .ok v => parseArgsLoop ctx args rest (odInsert acc a.name v)

/-- Modelled from the spec: `_normalize_domain_path` lives in
`yunohost/domain.py`, which is not among the sources.  Per §4.3 the
domain is trimmed and lower-cased and the path is forced to start and
end with `/`, collapsing repeated slashes in the trim. -/
def normalizeDomainPath (domain path : String) : String × String :=
  let core := stripChars (fun c => c = '/') path.data
  (strLower ⟨pyStrip domain.data⟩,
   if core = [] then "/" else ⟨'/' :: (core ++ ['/'])⟩)

/-- Modelled from the spec: `_get_conflicting_apps` lives in
`yunohost/domain.py`, which is not among the sources.  Per §4.3 a
conflict with an existing instance exists when the domains match and the
normalized paths are equal or one is a prefix of the other at a slash
boundary (both directions); every conflicting (path, app id, label)
triple is returned. -/
def getConflictingApps (apps : List AppUrl) (domain path : String) :
    List (String × String × String) :=
  apps.filterMap (fun a =>
    if (normalizeDomainPath a.domain a.path).1 = domain ∧
        ((normalizeDomainPath a.domain a.path).2 = path ∨
          (normalizeDomainPath a.domain a.path).2.data.isPrefixOf path.data ∨
          path.data.isPrefixOf (normalizeDomainPath a.domain a.path).2.data)
    then some ((normalizeDomainPath a.domain a.path).2, a.appId, a.label)
    else none)

/-- `_parse_action_args_in_yunohost_format` (`app.py:2092`): resolves
every argument, then, when the specifications contain exactly one
`domain`-typed and one `path`-typed argument, normalizes the resolved
pair, fails when any existing registration conflicts, and otherwise
writes the normalized path back into the resolved arguments. -/
def parseActionArgs (ctx : Ctx) (args : List (String × PyVal))
    (actionArgs : List ArgSpec) : Except ArgError (List (String × PyVal)) :=
  match parseArgsLoop ctx args actionArgs [] with
  | .error e => .error e
  | .ok d =>
      match (actionArgs.filter (fun a => a.type = "domain")).map (fun a => a.name),
          (actionArgs.filter (fun a => a.type = "path")).map (fun a => a.name) with
      | [dn], [pn] =>
          let dv := (lookupKV d dn).getD (.str "")
          let pv := (lookupKV d pn).getD (.str "")
          let dp := normalizeDomainPath dv.toStr pv.toStr
          let conflicts := getConflictingApps ctx.apps dp.1 dp.2
          if conflicts ≠ [] then .error (.appLocationUnavailable conflicts)
          else .ok (odInsert d pn (.str dp.2))
      | _, _ => .ok d

/-! ### Argument-resolver theorems (C3, C4, C10) -/

/-- A small concrete collaborator context for the concrete runs: one
domain, no users, no installed apps, a permissive password policy, a
non-interactive prompt and one existing registration at
`example.org/a/b/`. -/
def exCtx : Ctx :=
  { domains := ["example.org"], mainDomain := "example.org", users := [],
    installedApps := [], strongPassword := fun _ => true,
    prompt := fun _ => none,
    apps := [⟨"example.org", "/a/b/", "otherapp", "Other"⟩] }

/-- A non-optional boolean argument with no declared default. -/
def boolSpec : ArgSpec := { name := "b", type := "boolean" }

/-- A non-optional string argument with no default. -/
def strSpec : ArgSpec := { name := "s" }

/-- The same string argument with default `"foo"`. -/
def strFooSpec : ArgSpec := { name := "s", default := some (.str "foo") }

/-- C3 counterexample: the claim quantifies over every ArgumentSpec, but
a boolean-typed, non-optional argument with no declared default, no
caller value and no prompt resolves to 0 instead of failing with
ArgumentRequired, because the boolean default is transposed to 0 before
the value is sought. -/
theorem processArg_boolean_not_required :
    processArg exCtx [] boolSpec = .ok (.int 0) ∧
    ¬ processArg exCtx [] boolSpec = .error (.appArgumentRequired "b") :=
  ⟨rfl, fun h => Except.noConfusion h⟩

/-- C3 amended: for every ArgumentSpec that is not boolean-typed (whose
default is transposed to false) and not a prompted domain argument
(whose default becomes the main domain), if no caller value is supplied,
the prompt is unavailable and no default exists, resolution fails with
ArgumentRequired when the spec is not optional and records the empty
string when it is; and such a spec of type string with default `"foo"`
and no caller value resolves to `"foo"`. -/
theorem processArg_required_and_default (ctx : Ctx) (args : List (String × PyVal))
    (arg : ArgSpec) (hb : arg.type ≠ "boolean")
    (hdom : arg.type = "domain" → arg.ask = false)
    (hv : lookupKV args arg.name = none)
    (hpr : ctx.prompt arg.name = none) :
    (arg.default = none →
        processArg ctx args arg =
          if arg.optional then .ok (.str "")
          else .error (.appArgumentRequired arg.name)) ∧
    (∀ s, s ≠ "" → arg.default = some (.str s) → arg.choices = [] →
        arg.type = "string" →
        processArg ctx args arg = .ok (.str s)) := by
  constructor
  · intro hdef
    have hres : resolveValue ctx args arg = none := by
      by_cases hask : arg.ask
      · have hdt : ¬ arg.type = "domain" := fun h => by
          rw [hdom h] at hask
          exact Bool.noConfusion hask
        simp [resolveValue, hv, hask, hdt, hb, hdef, hpr]
      · simp [resolveValue, hv, hask, hb, hdef]
    by_cases hopt : arg.optional
    · simp [processArg, hres, pyIsNoneOrEmpty, hopt]
    · simp [processArg, hres, pyIsNoneOrEmpty, hopt]
  · intro s hs hdef hch hty
    have hbne : ¬ arg.type = "boolean" := hb
    have hres : resolveValue ctx args arg = some (.str s) := by
      by_cases hask : arg.ask
      · simp [resolveValue, hv, hty, hpr, hask, hdef]
      · simp [resolveValue, hv, hty, hask, hdef]
    simp [processArg, hres, pyIsNoneOrEmpty, hs, hch, hty]

/-- C3 amended, witness: a non-optional string argument with no default
fails with ArgumentRequired, and the same spec with default `"foo"`
resolves to `"foo"`. -/
theorem processArg_required_and_default_witness :
    processArg exCtx [] strSpec = .error (.appArgumentRequired "s") ∧
    processArg exCtx [] strFooSpec = .ok (.str "foo") := by
  constructor
  · have h :=
      (processArg_required_and_default exCtx [] strSpec (by decide)
        (by decide) rfl rfl).1 rfl
    simpa using h
  · exact
      (processArg_required_and_default exCtx [] strFooSpec (by decide)
        (by decide) rfl rfl).2 "foo" (by decide) rfl rfl rfl

/-- C4 counterexample: the caller-supplied string `"true"` is not
accepted for a boolean argument — the accepted string lists are only
`1/yes/y` and `0/no/n` — so resolution fails with the choice error
instead of coercing to true. -/
theorem processArg_boolean_true_string_rejected :
    processArg exCtx [("b", .str "true")] boolSpec =
      .error (.appArgumentChoiceInvalid "b" "yes, no, y, n, 1, 0") ∧
    ¬ processArg exCtx [("b", .str "true")] boolSpec = .ok (.int 1) :=
  ⟨rfl, fun h => Except.noConfusion h⟩

/-- C4 amended: for a boolean-typed argument with a caller-supplied
value, any case-insensitive member of \x7byes, y, 1\x7d coerces to 1 and
any case-insensitive member of \x7bno, n, 0\x7d coerces to 0, boolean
literals coerce to 1/0, and every other string — including `"true"` and
`"false"` — fails with the choice error. -/
theorem processArg_boolean_coercion (ctx : Ctx) (args : List (String × PyVal))
    (arg : ArgSpec) (v : PyVal) (ht : arg.type = "boolean")
    (hch : arg.choices = []) (hv : lookupKV args arg.name = some v) :
    (∀ s, v = .str s → ["1", "yes", "y"].contains (strLower s) = true →
        processArg ctx args arg = .ok (.int 1)) ∧
    (∀ s, v = .str s → ["0", "no", "n"].contains (strLower s) = true →
        processArg ctx args arg = .ok (.int 0)) ∧
    (∀ b, v = .bool b →
        processArg ctx args arg = .ok (.int (if b then 1 else 0))) ∧
    (∀ s, v = .str s → s ≠ "" →
        ["1", "yes", "y"].contains (strLower s) = false →
        ["0", "no", "n"].contains (strLower s) = false →
        processArg ctx args arg =
          .error (.appArgumentChoiceInvalid arg.name "yes, no, y, n, 1, 0")) := by
  have hres : resolveValue ctx args arg = some v := by
    simp [resolveValue, hv]
  refine ⟨?_, ?_, ?_, ?_⟩
  · intro s hvs hcon
    subst hvs
    have hs : ¬ s = "" := by
      intro h
      rw [h] at hcon
      exact absurd hcon (by decide)
    simp only [List.contains_cons, List.contains_nil, Bool.or_eq_true,
      Bool.or_false, beq_iff_eq] at hcon
    rcases hcon with h | h | h <;>
      simp [processArg, hres, pyIsNoneOrEmpty, hs, hch, ht, PyVal.toStr, h]
  · intro s hvs hcon
    subst hvs
    have hs : ¬ s = "" := by
      intro h
      rw [h] at hcon
      exact absurd hcon (by decide)
    simp only [List.contains_cons, List.contains_nil, Bool.or_eq_true,
      Bool.or_false, beq_iff_eq] at hcon
    rcases hcon with h | h | h <;>
      simp [processArg, hres, pyIsNoneOrEmpty, hs, hch, ht, PyVal.toStr, h]
  · intro b hvb
    subst hvb
    simp [processArg, hres, pyIsNoneOrEmpty, hch, ht]
  · intro s hvs hs hcon1 hcon0
    subst hvs
    simp only [List.contains_cons, List.contains_nil, Bool.or_eq_false_iff,
      beq_eq_false_iff_ne, ne_eq] at hcon1 hcon0
    obtain ⟨a1, a2, a3, -⟩ := hcon1
    obtain ⟨b1, b2, b3, -⟩ := hcon0
    simp [processArg, hres, pyIsNoneOrEmpty, hs, hch, ht, PyVal.toStr,
      a1, a2, a3, b1, b2, b3]

/-- C4 amended, witness: `"Y"` coerces to 1. -/
theorem processArg_boolean_coercion_witness :
    processArg exCtx [("b", .str "Y")] boolSpec = .ok (.int 1) :=
  (processArg_boolean_coercion exCtx [("b", .str "Y")] boolSpec (.str "Y")
    rfl rfl rfl).1 "Y" rfl (by decide)

/-- C10 counterexample: a boolean-typed, non-optional argument whose
caller-supplied value is the empty string does fail with
ArgumentRequired, so resolution is not unconditionally free of that
error. -/
theorem processArg_boolean_empty_value_required :
    processArg exCtx [("b", .str "")] boolSpec =
      .error (.appArgumentRequired "b") := rfl

theorem processArg_boolean_outcomes (ctx : Ctx) (args : List (String × PyVal))
    (arg : ArgSpec) (w : PyVal)
    (ht : arg.type = "boolean") (hw : resolveValue ctx args arg = some w)
    (hne : pyIsNoneOrEmpty (some w) = false) :
    (∃ k, processArg ctx args arg = .ok k) ∨
    (∃ c, processArg ctx args arg = .error (.appArgumentChoiceInvalid arg.name c)) := by
  simp only [processArg, hw, hne, ht, Bool.false_eq_true, false_and, if_false,
    String.reduceEq, reduceIte]
  split
  · exact .inr ⟨_, rfl⟩
  · split
    · exact .inl ⟨_, rfl⟩
    · split
      · exact .inl ⟨_, rfl⟩
      · split
        · exact .inl ⟨_, rfl⟩
        · exact .inr ⟨_, rfl⟩

/-- C10 amended: for every boolean-typed ArgumentSpec with no
caller-supplied value, resolution never fails with ArgumentRequired —
the missing default is transposed to 0 before the value is sought — and
with no prompt answer, no declared default and no choices it silently
resolves to 0 (false). -/
theorem processArg_boolean_no_required_when_absent (ctx : Ctx)
    (args : List (String × PyVal)) (arg : ArgSpec)
    (ht : arg.type = "boolean") (hv : lookupKV args arg.name = none) :
    (∀ n, ¬ processArg ctx args arg = .error (.appArgumentRequired n)) ∧
    (ctx.prompt arg.name = none → arg.default = none → arg.choices = [] →
        processArg ctx args arg = .ok (.int 0)) := by
  constructor
  · intro n hcontra
    have hres : ∃ w, resolveValue ctx args arg = some w ∧
        pyIsNoneOrEmpty (some w) = false := by
      by_cases hask : arg.ask
      · cases hpr : ctx.prompt arg.name with
        | none =>
          refine ⟨.int (if pyTruthyOpt arg.default then 1 else 0), ?_, rfl⟩
          simp [resolveValue, hv, ht, hask, hpr]
        | some input =>
          by_cases hi : input = ""
          · refine ⟨.int (if pyTruthyOpt arg.default then 1 else 0), ?_, rfl⟩
            simp [resolveValue, hv, ht, hask, hpr, hi]
          · refine ⟨.str input, ?_, by simp [pyIsNoneOrEmpty, hi]⟩
            simp [resolveValue, hv, ht, hask, hpr, hi]
      · refine ⟨.int (if pyTruthyOpt arg.default then 1 else 0), ?_, rfl⟩
        simp [resolveValue, hv, ht, hask]
    obtain ⟨w, hw, hne⟩ := hres
    rcases processArg_boolean_outcomes ctx args arg w ht hw hne with
      ⟨k, hk⟩ | ⟨c, hc⟩
    · rw [hk] at hcontra
      exact Except.noConfusion hcontra
    · rw [hc] at hcontra
      exact ArgError.noConfusion (Except.error.inj hcontra)
  · intro hpr hdef hch
    have hres : resolveValue ctx args arg = some (.int 0) := by
      by_cases hask : arg.ask
      · simp [resolveValue, hv, ht, hask, hpr, hdef, pyTruthyOpt]
      · simp [resolveValue, hv, ht, hask, hdef, pyTruthyOpt]
    have h0 : PyVal.toStr (.int 0) = "0" := rfl
    simp [processArg, hres, pyIsNoneOrEmpty, hch, ht, h0, strLower]

/-- C10 amended, witness: with no caller value at all the boolean
argument resolves to 0 and in particular does not raise
ArgumentRequired. -/
theorem processArg_boolean_no_required_when_absent_witness :
    (¬ processArg exCtx [] boolSpec = .error (.appArgumentRequired "b")) ∧
    processArg exCtx [] boolSpec = .ok (.int 0) :=
  ⟨(processArg_boolean_no_required_when_absent exCtx [] boolSpec rfl rfl).1 "b",
   (processArg_boolean_no_required_when_absent exCtx [] boolSpec rfl rfl).2
     rfl rfl rfl⟩

/-! ### Domain/path co-resolution theorem (C2) -/

/-- A context like `exCtx` whose only registration is at
`example.org/y/`. -/
def exCtxY : Ctx :=
  { exCtx with apps := [⟨"example.org", "/y/", "otherapp", "Other"⟩] }

/-- A domain-typed argument named `domain`. -/
def domainSpec : ArgSpec := { name := "domain", type := "domain" }

/-- A path-typed argument named `path`. -/
def pathSpec : ArgSpec := { name := "path", type := "path" }

/-- C2: for an action whose argument specifications contain exactly one
domain-typed and one path-typed argument, once the per-argument loop has
succeeded, resolution fails with the location error listing exactly the
conflicting triples — an existing registration conflicts exactly when
its normalized domain matches and one normalized path equals or is a
slash-boundary prefix of the other (both directions) — and succeeds when
no registration conflicts, writing the normalized path over the raw
value in the resolved arguments. -/
theorem parseActionArgs_location_check (ctx : Ctx) (args : List (String × PyVal))
    (actionArgs : List ArgSpec) (dn pn : String) (d : List (String × PyVal))
    (nd np : String)
    (hd : (actionArgs.filter (fun a => a.type = "domain")).map (fun a => a.name) =
      [dn])
    (hp : (actionArgs.filter (fun a => a.type = "path")).map (fun a => a.name) =
      [pn])
    (hloop : parseArgsLoop ctx args actionArgs [] = .ok d)
    (hnorm : normalizeDomainPath ((lookupKV d dn).getD (.str "")).toStr
        ((lookupKV d pn).getD (.str "")).toStr = (nd, np)) :
    (getConflictingApps ctx.apps nd np = [] →
        parseActionArgs ctx args actionArgs = .ok (odInsert d pn (.str np))) ∧
    (getConflictingApps ctx.apps nd np ≠ [] →
        parseActionArgs ctx args actionArgs =
          .error (.appLocationUnavailable (getConflictingApps ctx.apps nd np))) ∧
    (∀ a ∈ ctx.apps,
        ((normalizeDomainPath a.domain a.path).1 = nd ∧
          ((normalizeDomainPath a.domain a.path).2 = np ∨
            (normalizeDomainPath a.domain a.path).2.data.isPrefixOf np.data ∨
            np.data.isPrefixOf (normalizeDomainPath a.domain a.path).2.data)) →
        ((normalizeDomainPath a.domain a.path).2, a.appId, a.label) ∈
          getConflictingApps ctx.apps nd np) ∧
    (∀ t ∈ getConflictingApps ctx.apps nd np, ∃ a, a ∈ ctx.apps ∧
        ((normalizeDomainPath a.domain a.path).1 = nd ∧
          ((normalizeDomainPath a.domain a.path).2 = np ∨
            (normalizeDomainPath a.domain a.path).2.data.isPrefixOf np.data ∨
            np.data.isPrefixOf (normalizeDomainPath a.domain a.path).2.data)) ∧
        t = ((normalizeDomainPath a.domain a.path).2, a.appId, a.label)) := by
  have hmain : parseActionArgs ctx args actionArgs =
      if getConflictingApps ctx.apps nd np = []
      then .ok (odInsert d pn (.str np))
      else .error (.appLocationUnavailable (getConflictingApps ctx.apps nd np)) := by
    simp only [parseActionArgs, hloop, hd, hp, hnorm]
    by_cases hc : getConflictingApps ctx.apps nd np = []
    · simp [hc]
    · simp [hc]
  refine ⟨?_, ?_, ?_, ?_⟩
  · intro hc
    rw [hmain, if_pos hc]
  · intro hc
    rw [hmain, if_neg hc]
  · intro a ha hcond
    simp only [getConflictingApps, List.mem_filterMap]
    exact ⟨a, ha, if_pos hcond⟩
  · intro t hmem
    simp only [getConflictingApps, List.mem_filterMap] at hmem
    obtain ⟨a, ha, hfa⟩ := hmem
    by_cases hcond : (normalizeDomainPath a.domain a.path).1 = nd ∧
        ((normalizeDomainPath a.domain a.path).2 = np ∨
          (normalizeDomainPath a.domain a.path).2.data.isPrefixOf np.data ∨
          np.data.isPrefixOf (normalizeDomainPath a.domain a.path).2.data)
    · rw [if_pos hcond] at hfa
      exact ⟨a, ha, hcond, (Option.some.inj hfa).symm⟩
    · rw [if_neg hcond] at hfa
      exact absurd hfa (by simp)

/-- C2, witness: registering `example.org/a/` when `example.org/a/b/`
exists fails listing the conflicting triple, and registering
`example.org/x/` when only `example.org/y/` exists succeeds, with the
path already in normalized form. -/
theorem parseActionArgs_location_check_witness :
    parseActionArgs exCtx
        [("domain", PyVal.str "example.org"), ("path", PyVal.str "/a/")]
        [domainSpec, pathSpec] =
      .error (.appLocationUnavailable [("/a/b/", "otherapp", "Other")]) ∧
    parseActionArgs exCtxY
        [("domain", PyVal.str "example.org"), ("path", PyVal.str "/x/")]
        [domainSpec, pathSpec] =
      .ok [("domain", PyVal.str "example.org"), ("path", PyVal.str "/x/")] := by
  constructor
  · exact (parseActionArgs_location_check exCtx
      [("domain", PyVal.str "example.org"), ("path", PyVal.str "/a/")]
      [domainSpec, pathSpec] "domain" "path"
      [("domain", PyVal.str "example.org"), ("path", PyVal.str "/a/")]
      "example.org" "/a/" rfl rfl rfl rfl).2.1 (by decide)
  · exact (parseActionArgs_location_check exCtxY
      [("domain", PyVal.str "example.org"), ("path", PyVal.str "/x/")]
      [domainSpec, pathSpec] "domain" "path"
      [("domain", PyVal.str "example.org"), ("path", PyVal.str "/x/")]
      "example.org" "/x/" rfl rfl rfl rfl).1 (by decide)

/-! ### Manifest requirements check (`_check_manifest_requirements`, `app.py:2002`) -/

/-- `is_true` (`app.py:2445`): booleans pass through, strings compare
against the four accepted spellings, anything else is its truthiness. -/
def isTrue : PyVal → Bool
  | .bool b => b
  | .str s => ["yes", "Yes", "true", "True"].contains s
  | .int n => n ≠ 0

/-- The parts of a manifest consulted by `_check_manifest_requirements`:
the `requirements` mapping, the deprecated `min_version` key, and the
`multi_instance` value (absent meaning false). -/
structure ManifestReq where
  requirements : List (String × String) := []
  minVersion : Option String := none
  multiInstance : PyVal := .bool false

/-- The external package database (`moulinette` `packages` helpers): the
truthiness of `SpecifierSet(req) & '>= 2.3.6'`, the installed version of
a package (`none` raising `PackageException`), and specifier-set
membership. -/
structure PkgCtx where
  compat236 : String → Bool
  installedVersion : String → Option String
  inSpec : String → String → Bool

/-- The errors `_check_manifest_requirements` raises. -/
inductive ReqError where
  | appIncompatible
  | appRequirementsFailed
  | appRequirementsUnmeet (pkgname version spec : String)
deriving DecidableEq

/-- The deprecated `min_version` merge (`app.py:2007`): a `min_version`
key overwrites the `yunohost` requirement with `>> <min_version>`. -/
def effectiveRequirements (m : ManifestReq) : List (String × String) :=
  match m.minVersion with
  | some mv => odInsert m.requirements "yunohost" (">> " ++ mv)
  | none => m.requirements

/-- The per-package validation loop (`app.py:2036`–2043). -/
def checkVersions (pkg : PkgCtx) : List (String × String) → Except ReqError Unit
  | [] => .ok ()
  | (name, spec) :: rest =>
      if pkg.inSpec ((pkg.installedVersion name).getD "") spec then
        checkVersions pkg rest
      else
        .error (.appRequirementsUnmeet name ((pkg.installedVersion name).getD "")
          spec)

/-- Version retrieval and validation (`app.py:2027`–2043): fetching an
uninstalled package raises, then each requirement is matched against the
installed version. -/
def validateRequirements (pkg : PkgCtx) (reqs : List (String × String)) :
    Except ReqError Unit :=
  if reqs.all (fun kv => (pkg.installedVersion kv.1).isSome) then
    checkVersions pkg reqs
  else .error .appRequirementsFailed

/-- `_check_manifest_requirements` (`app.py:2002`): after the
`min_version` merge, a multi-instance manifest must carry a non-empty
`yunohost` requirement compatible with `>= 2.3.6` or the incompatibility
error is raised; the requirements are then validated unchanged (or the
check returns at once when the manifest is not multi-instance and has no
requirements). -/
def checkManifestRequirements (pkg : PkgCtx) (m : ManifestReq) :
    Except ReqError Unit :=
  let reqs := effectiveRequirements m
  if isTrue m.multiInstance then
    (lookupKV reqs "yunohost").elim (.error .appIncompatible) (fun r =>
      if r = "" ∨ ¬ pkg.compat236 r then .error .appIncompatible
      else validateRequirements pkg reqs)
  else if reqs = [] then .ok ()
  else validateRequirements pkg reqs

/-- A package database on which every constraint is satisfiable. -/
def pkgPermissive : PkgCtx :=
  ⟨fun _ => true, fun _ => some "2.6.0", fun _ _ => true⟩

/-- A multi-instance manifest with no requirements at all. -/
def mMultiNoReq : ManifestReq := { multiInstance := .bool true }

/-- A multi-instance manifest with a caller-supplied `yunohost`
requirement. -/
def mMultiYnhReq : ManifestReq :=
  { requirements := [("yunohost", ">> 2.4")], multiInstance := .bool true }

/-- C5 counterexample: a multi-instance manifest with no `yunohost`
requirement is rejected with the incompatibility error even on a package
database where every constraint holds — no minimum-platform requirement
is injected for it. -/
theorem checkManifestRequirements_no_injection :
    checkManifestRequirements pkgPermissive mMultiNoReq =
      .error .appIncompatible ∧
    ¬ checkManifestRequirements pkgPermissive mMultiNoReq = .ok () :=
  ⟨rfl, fun h => Except.noConfusion h⟩

/-- C5 amended: for a manifest with multi_instance true the requirements
check injects nothing: it fails with the incompatibility error unless
the manifest's own requirements (after the deprecated min_version merge)
contain a non-empty `yunohost` specifier whose intersection with
`>= 2.3.6` is non-empty, and in that case the caller-supplied
requirements are validated unchanged. -/
theorem checkManifestRequirements_multiInstance (pkg : PkgCtx)
    (m : ManifestReq) (hmi : isTrue m.multiInstance = true) :
    (lookupKV (effectiveRequirements m) "yunohost" = none →
        checkManifestRequirements pkg m = .error .appIncompatible) ∧
    (∀ r, lookupKV (effectiveRequirements m) "yunohost" = some r →
        r = "" ∨ pkg.compat236 r = false →
        checkManifestRequirements pkg m = .error .appIncompatible) ∧
    (∀ r, lookupKV (effectiveRequirements m) "yunohost" = some r →
        ¬ r = "" → pkg.compat236 r = true →
        checkManifestRequirements pkg m =
          validateRequirements pkg (effectiveRequirements m)) := by
  refine ⟨?_, ?_, ?_⟩
  · intro hlook
    simp [checkManifestRequirements, hmi, hlook]
  · intro r hlook hbad
    rcases hbad with hbad | hbad
    · simp [checkManifestRequirements, hmi, hlook, hbad]
    · simp [checkManifestRequirements, hmi, hlook, hbad]
  · intro r hlook hne hok
    simp [checkManifestRequirements, hmi, hlook, hne, hok]

/-- C5 amended, witness: a multi-instance manifest carrying
`yunohost >> 2.4` passes the compatibility gate and its own requirement
is validated unchanged, succeeding on the permissive database. -/
theorem checkManifestRequirements_multiInstance_witness :
    checkManifestRequirements pkgPermissive mMultiYnhReq =
      validateRequirements pkgPermissive (effectiveRequirements mMultiYnhReq) ∧
    checkManifestRequirements pkgPermissive mMultiYnhReq = .ok () := by
  have h := (checkManifestRequirements_multiInstance pkgPermissive mMultiYnhReq
    rfl).2.2 ">> 2.4" rfl (by decide) rfl
  exact ⟨h, h.trans rfl⟩

/-! ### Install failure rollback (`app_install`, `app.py:811`–867) -/

/-- Outcome of running the install script through `hook_exec`: a
returned exit code, a keyboard interrupt or end-of-file (retcode −1), or
another uncaught exception (the initial retcode 1 is kept). -/
inductive ScriptOutcome where
  | exited (code : Int)
  | interrupted
  | raised
deriving DecidableEq

/-- `install_retcode` after the try/except arms (`app.py:812`–821). -/
def retcodeOf : ScriptOutcome → Int
  | .exited c => c
  | .interrupted => -1
  | .raised => 1

/-- Input of the script-execution phase of `app_install`: the ids
computed earlier in the function, the caller's suppress option, the
install script outcome and the remove script's exit code. -/
structure InstallRun where
  appId : String
  appInstanceName : String
  instanceNumber : Int
  noRemoveOnFailure : Bool
  installOutcome : ScriptOutcome
  removeExit : Int

/-- The error `app_install` raises on a failed script. -/
inductive InstallError where
  | operationInterrupted
  | unexpectedError
deriving DecidableEq

/-- Observable effects of the `finally` block of `app_install`. -/
structure InstallPhaseResult where
  removeScriptRun : Option (List (String × String) × List String)
  permissionsRemoved : Bool
  settingsDirRemoved : Bool
  extractedDirRemoved : Bool
  removeWarning : Bool
  outcome : Except InstallError Unit
deriving DecidableEq

/-- The `finally` block of `app_install` (`app.py:822`–867): on a
non-zero retcode, unless suppressed, the remove script runs with exactly
the three id variables and the instance name as its only argument and
the permissions are removed; the settings directory and the extracted
tree are always deleted on failure; a non-zero remove exit only logs a
warning; the raised error is the interrupted one for retcode −1 and the
generic one otherwise. -/
def installScriptPhase (i : InstallRun) : InstallPhaseResult :=
  if retcodeOf i.installOutcome = 0 then
    { removeScriptRun := none, permissionsRemoved := false,
      settingsDirRemoved := false, extractedDirRemoved := false,
      removeWarning := false, outcome := .ok () }
  else
    { removeScriptRun :=
        if i.noRemoveOnFailure then none
        else some ([("YNH_APP_ID", i.appId),
                    ("YNH_APP_INSTANCE_NAME", i.appInstanceName),
                    ("YNH_APP_INSTANCE_NUMBER", toString i.instanceNumber)],
                   [i.appInstanceName]),
      permissionsRemoved := ! i.noRemoveOnFailure,
      settingsDirRemoved := true,
      extractedDirRemoved := true,
      removeWarning := ! i.noRemoveOnFailure && i.removeExit != 0,
      outcome := .error (if retcodeOf i.installOutcome = -1 then
                           .operationInterrupted
                         else .unexpectedError) }

/-- C1: when the install script does not exit 0 and rollback is not
suppressed, `app_install` runs the remove script with a minimal
environment of exactly the three id variables and the instance name as
its only argument, removes the permission bindings, deletes the settings
directory and the extracted tree, raises the distinguished interrupted
error for an interruption (retcode −1) and the original install failure
otherwise, and a failing remove script only sets the warning without
changing the raised error. -/
theorem app_install_rollback (i : InstallRun)
    (hfail : ¬ retcodeOf i.installOutcome = 0)
    (hnr : i.noRemoveOnFailure = false) :
    (installScriptPhase i).removeScriptRun =
      some ([("YNH_APP_ID", i.appId),
             ("YNH_APP_INSTANCE_NAME", i.appInstanceName),
             ("YNH_APP_INSTANCE_NUMBER", toString i.instanceNumber)],
            [i.appInstanceName]) ∧
    (installScriptPhase i).permissionsRemoved = true ∧
    (installScriptPhase i).settingsDirRemoved = true ∧
    (installScriptPhase i).extractedDirRemoved = true ∧
    (installScriptPhase i).outcome =
      .error (if retcodeOf i.installOutcome = -1 then .operationInterrupted
              else .unexpectedError) ∧
    ((installScriptPhase i).removeWarning = true ↔ ¬ i.removeExit = 0) := by
  simp [installScriptPhase, hfail, hnr]

/-- C1, witness: an install script exiting 1 with a remove script also
exiting 1 drives the full rollback and still reports the generic install
failure. -/
theorem app_install_rollback_witness :
    ¬ retcodeOf (.exited 1) = 0 ∧
    (installScriptPhase ⟨"app", "app", 1, false, .exited 1, 1⟩).outcome =
      .error .unexpectedError ∧
    (installScriptPhase ⟨"app", "app", 1, false, .exited 1, 1⟩).removeWarning =
      true := by
  have h := app_install_rollback ⟨"app", "app", 1, false, .exited 1, 1⟩
    (by decide) rfl
  refine ⟨by decide, ?_, h.2.2.2.2.2.mpr (by decide)⟩
  have h5 := h.2.2.2.2.1
  simpa using h5

/-! ### ChangeURL (`app_change_url`, `app.py:444`, and `app_checkurl`, `app.py:1189`) -/

/-- `normalize_url_path` (`app.py:2484`): strip slashes, then
whitespace, from both ends; a non-empty remainder is wrapped in single
slashes, an empty one yields `/`. -/
def normalizeUrlPath (s : String) : String :=
  let core := pyStrip (stripChars (fun c => c = '/') s.data)
  if core = [] then "/" else ⟨'/' :: (core ++ ['/'])⟩

/-- Split at the first `/` (Python `url[:url.index('/')]` and
`url[url.index('/'):]`); `none` when no slash occurs (Python raises
`ValueError`). -/
def splitAtSlash : List Char → Option (List Char × List Char)
  | [] => none
  | c :: cs =>
      if c = '/' then some ([], c :: cs)
      else (splitAtSlash cs).map (fun p => (c :: p.1, p.2))

/-- The errors `app_checkurl` raises. -/
inductive CheckUrlError where
  | domainUnknown
  | locationAlreadyUsed (app path : String)
  | locationInstallFailed (otherPath otherApp : String)
  | pyValueError
deriving DecidableEq

/-- One entry of the raw app map: an app `id` installed at
`(domain, path)`. -/
structure AppMapEntry where
  domain : String
  path : String
  id : String
deriving DecidableEq

/-- The conflict loop of `app_checkurl` (`app.py:1223`–1238) over the
`(path, id)` pairs of the matched domain: the requested app itself is
skipped and noted as installed, an equal path raises
`app_location_already_used`, and a prefix in either direction raises
`app_location_install_failed`. -/
def checkurlLoop (app : Option String) (path : String) :
    List (String × String) → Bool → Except CheckUrlError Bool
  | [], installed => .ok installed
  | (p, aid) :: rest, installed =>
      if app = some aid then checkurlLoop app path rest true
      else if path = p then .error (.locationAlreadyUsed aid path)
      else if p.data.isPrefixOf path.data ∨ path.data.isPrefixOf p.data then
        .error (.locationInstallFailed p aid)
      else checkurlLoop app path rest installed

/-- `app_checkurl` (`app.py:1189`): strips the scheme, appends a
trailing slash when missing, splits the url at the first slash into
domain and path (appending a slash to the path when missing), checks
the domain, runs the conflict loop over the apps of that domain, and —
when a requested app is given that is not already installed on that
domain — writes the split (domain, path) pair into that app's settings.
Returns the (possibly updated) settings of the requested app. -/
def appCheckurl (domains : List String) (appsMap : List AppMapEntry)
    (settings : String × String) (url : String) (app : Option String) :
    Except CheckUrlError (String × String) :=
  let url1 : String :=
    if "https://".data.isPrefixOf url.data then ⟨url.data.drop 8⟩
    else if "http://".data.isPrefixOf url.data then ⟨url.data.drop 7⟩
    else url
  let url2 : String :=
    if url1.data.getLast? ≠ some '/' then ⟨url1.data ++ ['/']⟩ else url1
  (splitAtSlash url2.data).elim (.error .pyValueError) (fun dp =>
    let domain : String := ⟨dp.1⟩
    let path0 : String := ⟨dp.2⟩
    let path : String :=
      if path0.data.getLast? ≠ some '/' then ⟨path0.data ++ ['/']⟩ else path0
    if domains.contains domain then
      match checkurlLoop app path
          ((appsMap.filter (fun e => e.domain = domain)).map
            (fun e => (e.path, e.id))) false with
      | .error e => .error e
      | .ok installed =>
          if app.isSome ∧ ¬ installed then .ok (domain, path)
          else .ok settings
    else .error .domainUnknown)

/-- Input of `app_change_url`: the requested instance, its stored
domain and path settings, the caller's new domain and path, the
change_url script's exit code and whether the nginx reload succeeds. -/
structure ChangeUrlIn where
  app : String
  oldDomain : String
  oldPath : String
  newDomain : String
  newPath : String
  scriptExit : Int
  nginxReloadOk : Bool

/-- The reported outcome of `app_change_url`. -/
inductive ChangeUrlOutcome where
  | identicalDomains
  | checkurlError (e : CheckUrlError)
  | scriptFailed
  | nginxReloadFailed
  | success
deriving DecidableEq

/-- Observable effects of `app_change_url` on the instance's settings:
whether the script ran, the settings in force when it started, the final
settings, and the reported outcome. -/
structure ChangeUrlResult where
  scriptRan : Bool
  settingsAtScript : String × String
  finalSettings : String × String
  outcome : ChangeUrlOutcome
deriving DecidableEq

/-- `app_change_url` (`app.py:444`–554) for an instance whose manifest
declares no change_url arguments, tracking its writes to the `domain`
and `path` settings: the new domain is stripped and lower-cased and
both paths normalized, the identical-location error is checked, then
`app_checkurl` runs on the new url — writing the new pair into the
settings unless the app already occupies a location on the target
domain — then the script; on a non-zero exit the old domain and
normalized old path are written back and the function returns; on exit
zero the new pair is written and the nginx reload decides the reported
outcome. -/
def appChangeUrl (domains : List String) (appsMap : List AppMapEntry)
    (i : ChangeUrlIn) : ChangeUrlResult :=
  let settings0 := (i.oldDomain, i.oldPath)
  let domain := strLower ⟨pyStrip i.newDomain.data⟩
  let oldPath := normalizeUrlPath i.oldPath
  let path := normalizeUrlPath i.newPath
  if (domain, path) = (i.oldDomain, oldPath) then
    { scriptRan := false, settingsAtScript := settings0,
      finalSettings := settings0, outcome := .identicalDomains }
  else
    match appCheckurl domains appsMap settings0 (domain ++ path)
        (some i.app) with
    | .error e =>
        { scriptRan := false, settingsAtScript := settings0,
          finalSettings := settings0, outcome := .checkurlError e }
    | .ok settings1 =>
        if i.scriptExit ≠ 0 then
          { scriptRan := true, settingsAtScript := settings1,
            finalSettings := (i.oldDomain, oldPath),
            outcome := .scriptFailed }
        else
          { scriptRan := true, settingsAtScript := settings1,
            finalSettings := (domain, path),
            outcome := if i.nginxReloadOk then .success
                       else .nginxReloadFailed }

theorem stringMkData (s : String) : (⟨s.data⟩ : String) = s := rfl

theorem splitAtSlash_append (d p : List Char)
    (hd : d.all (fun c => ¬ c = '/') = true) (hp : p.head? = some '/') :
    splitAtSlash (d ++ p) = some (d, p) := by
  induction d with
  | nil =>
    cases p with
    | nil => simp at hp
    | cons c cs =>
      simp only [List.head?_cons, Option.some.injEq] at hp
      subst hp
      simp [splitAtSlash]
  | cons c cs ih =>
    simp only [List.all_cons, Bool.and_eq_true, decide_eq_true_eq] at hd
    simp only [List.cons_append, splitAtSlash, List.append_eq]
    rw [if_neg hd.1, ih (by simpa using hd.2), Option.map_some']

theorem normalizeUrlPath_head (s : String) :
    (normalizeUrlPath s).data.head? = some '/' := by
  unfold normalizeUrlPath
  by_cases h : pyStrip (stripChars (fun c => c = '/') s.data) = []
  · rw [if_pos h]
    rfl
  · rw [if_neg h]
    rfl

theorem normalizeUrlPath_last (s : String) :
    (normalizeUrlPath s).data.getLast? = some '/' := by
  unfold normalizeUrlPath
  by_cases h : pyStrip (stripChars (fun c => c = '/') s.data) = []
  · rw [if_pos h]
    rfl
  · rw [if_neg h]
    show ('/' :: (pyStrip (stripChars (fun c => c = '/') s.data) ++ ['/'])).getLast?
      = some '/'
    rw [← List.cons_append]
    exact List.getLast?_concat _

theorem checkurlLoop_no_self (app path : String) :
    ∀ (entries : List (String × String)) (inst : Bool),
      (∀ e ∈ entries, ¬ e.2 = app) →
      ∀ r, checkurlLoop (some app) path entries inst = .ok r → r = inst := by
  intro entries
  induction entries with
  | nil =>
    intro inst h r hr
    exact (Except.ok.inj hr).symm
  | cons e rest ih =>
    intro inst h r hr
    obtain ⟨p, aid⟩ := e
    have hne : ¬ ((some app : Option String) = some aid) := fun hc =>
      h (p, aid) (List.mem_cons_self _ _) ((Option.some.inj hc).symm)
    simp only [checkurlLoop] at hr
    rw [if_neg hne] at hr
    by_cases hpp : path = p
    · rw [if_pos hpp] at hr
      exact absurd hr (by simp)
    · rw [if_neg hpp] at hr
      by_cases hpre : p.data.isPrefixOf path.data ∨ path.data.isPrefixOf p.data
      · rw [if_pos hpre] at hr
        exact absurd hr (by simp)
      · rw [if_neg hpre] at hr
        exact ih inst (fun x hx => h x (List.mem_cons_of_mem _ hx)) r hr

/-- C9 counterexample: in a same-domain move the app itself already
occupies a location on the target domain, so `app_checkurl` skips the
settings write and the change_url script starts with the old
(domain, path) still in the settings, not the new pair. -/
theorem appChangeUrl_samedomain_no_write :
    (appChangeUrl ["example.org"] [⟨"example.org", "/a/", "app1"⟩]
        ⟨"app1", "example.org", "/a/", "example.org", "/b/", 1, true⟩).scriptRan
      = true ∧
    (appChangeUrl ["example.org"] [⟨"example.org", "/a/", "app1"⟩]
        ⟨"app1", "example.org", "/a/", "example.org", "/b/", 1, true⟩).settingsAtScript
      = ("example.org", "/a/") ∧
    ¬ (appChangeUrl ["example.org"] [⟨"example.org", "/a/", "app1"⟩]
        ⟨"app1", "example.org", "/a/", "example.org", "/b/", 1, true⟩).settingsAtScript
      = ("example.org", "/b/") :=
  ⟨rfl, rfl, by decide⟩

/-- C9 amended: when the reservation step succeeds and the change_url
script then fails, the old domain and the normalized old path are
written back, so the settings again hold the pre-operation location;
and the new (domain, path) pair has been written into the settings
before the script ran provided the instance did not already occupy a
location on the target domain (for a same-domain move the old values
stay in place during the script). -/
theorem appChangeUrl_write_and_restore (domains : List String)
    (appsMap : List AppMapEntry) (i : ChangeUrlIn) (nd np : String)
    (hnd : strLower ⟨pyStrip i.newDomain.data⟩ = nd)
    (hnp : normalizeUrlPath i.newPath = np) :
    (∀ s1, ¬ (nd, np) = (i.oldDomain, normalizeUrlPath i.oldPath) →
        appCheckurl domains appsMap (i.oldDomain, i.oldPath) (nd ++ np)
          (some i.app) = .ok s1 →
        ¬ i.scriptExit = 0 →
        (appChangeUrl domains appsMap i).scriptRan = true ∧
        (appChangeUrl domains appsMap i).settingsAtScript = s1 ∧
        (appChangeUrl domains appsMap i).finalSettings =
          (i.oldDomain, normalizeUrlPath i.oldPath) ∧
        (appChangeUrl domains appsMap i).outcome = .scriptFailed) ∧
    (∀ s1, appCheckurl domains appsMap (i.oldDomain, i.oldPath) (nd ++ np)
          (some i.app) = .ok s1 →
        (∀ e ∈ appsMap, e.domain = nd → ¬ e.id = i.app) →
        "https://".data.isPrefixOf ((nd ++ np) : String).data = false →
        "http://".data.isPrefixOf ((nd ++ np) : String).data = false →
        nd.data.all (fun c => ¬ c = '/') = true →
        s1 = (nd, np)) := by
  constructor
  · intro s1 hne hcheck hexit
    simp only [appChangeUrl, hnd, hnp, if_neg hne, hcheck, if_pos hexit, ne_eq]
    simp
  · intro s1 hcheck hself hs1 hs2 hnoslash
    have hhead : np.data.head? = some '/' := by
      have h := normalizeUrlPath_head i.newPath
      rwa [hnp] at h
    have hlastnp : np.data.getLast? = some '/' := by
      have h := normalizeUrlPath_last i.newPath
      rwa [hnp] at h
    have hsplit : splitAtSlash ((nd ++ np) : String).data =
        some (nd.data, np.data) := by
      rw [String.data_append]
      exact splitAtSlash_append nd.data np.data hnoslash hhead
    have hlast2 : ((nd ++ np) : String).data.getLast? = some '/' := by
      simp [String.data_append, List.getLast?_append, hlastnp]
    simp only [appCheckurl, hs1, hs2, Bool.false_eq_true, if_false, hlast2,
      ne_eq, not_true_eq_false, hsplit, Option.elim_some, stringMkData,
      hlastnp] at hcheck
    by_cases hdc : domains.contains nd = true
    · simp only [hdc, if_true] at hcheck
      cases hl : checkurlLoop (some i.app) np
          ((appsMap.filter (fun e => e.domain = nd)).map
            (fun e => (e.path, e.id))) false with
      | error e =>
        rw [hl] at hcheck
        exact absurd hcheck (by simp)
      | ok inst =>
        have hinst : inst = false := by
          refine checkurlLoop_no_self i.app np _ false ?_ inst hl
          intro x hx
          simp only [List.mem_map, List.mem_filter] at hx
          obtain ⟨a, ⟨ha, hadom⟩, rfl⟩ := hx
          exact hself a ha (by simpa using hadom)
        subst hinst
        rw [hl] at hcheck
        simp at hcheck
        exact hcheck.symm
    · simp only [Bool.not_eq_true] at hdc
      rw [hdc] at hcheck
      exact absurd hcheck (by simp)

/-- C9 amended, witness: a cross-domain move with a failing script —
the script starts with the new pair written into the settings and the
failure writes the old pair back. -/
theorem appChangeUrl_write_and_restore_witness :
    (appChangeUrl ["example.org", "old.org"] [⟨"old.org", "/a/", "app1"⟩]
        ⟨"app1", "old.org", "/a/", "example.org", "/b/", 1, true⟩).settingsAtScript
      = ("example.org", "/b/") ∧
    (appChangeUrl ["example.org", "old.org"] [⟨"old.org", "/a/", "app1"⟩]
        ⟨"app1", "old.org", "/a/", "example.org", "/b/", 1, true⟩).finalSettings
      = ("old.org", "/a/") ∧
    (appChangeUrl ["example.org", "old.org"] [⟨"old.org", "/a/", "app1"⟩]
        ⟨"app1", "old.org", "/a/", "example.org", "/b/", 1, true⟩).outcome
      = .scriptFailed := by
  have h := (appChangeUrl_write_and_restore ["example.org", "old.org"]
      [⟨"old.org", "/a/", "app1"⟩]
      ⟨"app1", "old.org", "/a/", "example.org", "/b/", 1, true⟩
      "example.org" "/b/" rfl rfl).1 ("example.org", "/b/")
      (by decide) rfl (by decide)
  exact ⟨h.2.1, h.2.2.1, h.2.2.2⟩

end Yunohost
